import Mathlib

/-!
Verification of the endee retrieval pipeline against its specification.

The Python source is shallowly embedded: strings become `List Char`, Python
`str.split()` becomes `splitWords`, and the chunking while-loop of
`TextChunker.chunk_text` becomes the fuelled function `chunkLoop`, where a
`none` result models a loop that does not terminate within the given fuel.
-/

namespace Endee

/-- Helper for `splitWords`: `acc` is the (reversed) word being read.
Mirrors the semantics of Python `str.split()` with no arguments: maximal
runs of non-whitespace characters, separators discarded. -/
def splitWordsAux : List Char → List Char → List (List Char)
  | [], acc => if acc.isEmpty then [] else [acc.reverse]
  | c :: rest, acc =>
    if c.isWhitespace then
      if acc.isEmpty then splitWordsAux rest []
      else acc.reverse :: splitWordsAux rest []
    else splitWordsAux rest (c :: acc)

/-- Python `text.split()` (chunker.py line 73). -/
def splitWords (text : List Char) : List (List Char) :=
  splitWordsAux text []

/-- The while-loop of `TextChunker.chunk_text` (chunker.py lines 83-96).
`fuel` counts remaining loop iterations; `none` means the loop did not
finish within `fuel` iterations (for `chunk_size > overlap` the loop always
finishes within `total` iterations, see `chunkLoop_spec`).  Each iteration
takes `words[start_idx : start_idx + chunk_size]` (clamped at `total`,
exactly as Python slicing does) and advances `start_idx` by
`chunk_size - overlap`; with `chunk_size ≤ overlap` the Python step is ≤ 0
and the start index never passes `total`, which the truncated subtraction
`chunk_size - overlap = 0` models. -/
def chunkLoop (chunk_size overlap total : Nat) (words : List (List Char)) :
    Nat → Nat → Option (List (List (List Char)))
  | 0, start_idx => if start_idx < total then none else some []
  | fuel + 1, start_idx =>
    if start_idx < total then
      (chunkLoop chunk_size overlap total words fuel
          (start_idx + (chunk_size - overlap))).map
        (fun rest => (words.drop start_idx).take chunk_size :: rest)
    else some []

/-- `TextChunker.chunk_text` (chunker.py lines 59-101).
The guard `if not text or not text.strip()` holds exactly when every
character of `text` is whitespace (an empty string vacuously so).  When the
word count is at most `chunk_size` the original text is returned as the
single chunk; otherwise the while-loop runs, with fuel `total` (sufficient
whenever `chunk_size > overlap`).  Each produced chunk is
`' '.join(chunk_words)`, i.e. `List.intercalate [' ']`. -/
def chunk_text (chunk_size overlap : Nat) (text : List Char) :
    Option (List (List Char)) :=
  if text.all Char.isWhitespace then some []
  else
    let words := splitWords text
    let total := words.length
    if total ≤ chunk_size then some [text]
    else
      (chunkLoop chunk_size overlap total words total 0).map
        (List.map (List.intercalate [' ']))

/-- One entry of the list returned by `TextChunker.chunk_documents`
(chunker.py lines 121-127): a dict with keys
`filename`, `chunk_id`, `chunk_text`, `total_chunks`. -/
structure ChunkInfo where
  filename : List Char
  chunk_id : Nat
  chunk_text : List Char
  total_chunks : Nat
  deriving Repr, DecidableEq

/-- `TextChunker.chunk_documents` (chunker.py lines 103-133): chunk each
`(filename, content)` document, tag each chunk with its 1-based index
(`enumerate(chunks, start=1)`) and the document's chunk count, and
concatenate in document order. -/
def chunk_documents (chunk_size overlap : Nat) :
    List (List Char × List Char) → Option (List ChunkInfo)
  | [] => some []
  | (filename, content) :: rest => do
    let chunks ← chunk_text chunk_size overlap content
    let tail ← chunk_documents chunk_size overlap rest
    some (((List.enumFrom 1 chunks).map
      (fun p => ⟨filename, p.1, p.2, chunks.length⟩)) ++ tail)

/-- Error type named by the specification's taxonomy (`ConfigurationError`,
spec §7).  The source under `src/` defines no such class and never raises it. -/
inductive ConfigurationError where
  | mk : List Char → ConfigurationError
  deriving Repr, DecidableEq

/-- The chunker object: `TextChunker.__init__` stores these two fields
(chunker.py lines 14-28).  Python ints are modelled as `Int` here so that
invalid parameters (e.g. a negative overlap) are expressible. -/
structure TextChunker where
  chunk_size : Int
  overlap : Int
  deriving Repr, DecidableEq

/-- `TextChunker.__init__` (chunker.py lines 14-28): it assigns
`self.chunk_size` and `self.overlap` and logs; it contains no validation
and no raise statement, so it succeeds on every input. -/
def TextChunker.init (chunk_size overlap : Int) :
    Except ConfigurationError TextChunker :=
  Except.ok ⟨chunk_size, overlap⟩

/-! ### The query engine (query_engine.py, endee_client.py, llm_client.py)

Scores are Python floats; they are modelled by an arbitrary type `F`
together with the two operations the code applies to them:
`round3` for Python `round(score, 3)` and `fmt2` for `f"‹score›:.2f"`-style
formatting (written here without braces), plus `fzero` for the literal
`0.0` used as a `dict.get` default.  No claim depends on float arithmetic. -/

/-- The `metadata` dict of a search result as read by `QueryEngine.query`
(query_engine.py lines 98-110): each key may be absent. -/
structure Metadata where
  chunk_text : Option (List Char)
  source_file : Option (List Char)
  chunk_id : Option Nat
  deriving Repr, DecidableEq

/-- One element of the list returned by `EndeeClient.search_vectors`:
a dict whose `score` and `metadata` keys may be absent
(query_engine.py lines 98-101 use `.get` with defaults). -/
structure SearchResult (F : Type) where
  score : Option F
  metadata : Option Metadata
  deriving Repr, DecidableEq

/-- One entry of `sources_info` (query_engine.py lines 108-113). -/
structure SourceInfo (F : Type) where
  source_file : List Char
  chunk_id : Nat
  similarity_score : F
  chunk_text : List Char
  deriving Repr, DecidableEq

/-- The dict returned by `QueryEngine.query`.  Python returns dicts with
varying key sets; an `Option` field records whether the key is present
(`sources`/`num_sources`/`error`). -/
structure QueryOutcome (F : Type) where
  query : List Char
  answer : List Char
  sources : Option (List (SourceInfo F))
  num_sources : Option Nat
  error : Option (List Char)
  deriving Repr, DecidableEq

/-- query_engine.py line 79. -/
def errRetrieveAnswer : List Char :=
  "Error: Could not retrieve relevant information from the knowledge base.".toList

/-- query_engine.py line 88. -/
def insufficientAnswer : List Char :=
  "I don\x27t have enough information in the knowledge base to answer this question.".toList

/-- query_engine.py line 130. -/
def errGenerateAnswer : List Char :=
  "Error: Could not generate a response.".toList

/-- The `sources_info` entry built for one search result
(query_engine.py lines 98-113), including the 200-character preview
truncation with a `...` marker. -/
def mkSourceInfo {F : Type} (round3 : F → F) (fzero : F)
    (r : SearchResult F) : SourceInfo F :=
  let metadata := r.metadata.getD ⟨none, none, none⟩
  let ctext := metadata.chunk_text.getD []
  ⟨metadata.source_file.getD ("unknown".toList),
   metadata.chunk_id.getD 0,
   round3 (r.score.getD fzero),
   if 200 < ctext.length then ctext.take 200 ++ ("...".toList) else ctext⟩

/-- The context fragment built for one search result
(query_engine.py lines 104-105). -/
def contextPart {F : Type} (idx : Nat) (r : SearchResult F) : List Char :=
  let metadata := r.metadata.getD ⟨none, none, none⟩
  ("[Source ".toList) ++ (Nat.repr idx).toList ++ (": ".toList)
    ++ metadata.source_file.getD ("unknown".toList) ++ ("]".toList)
    ++ [Char.ofNat 10] ++ metadata.chunk_text.getD []

namespace LLMClient

/-- `LLMClient.generate_response` (llm_client.py lines 19-70): a
deterministic formatter.  The `except` branch returning `None` is
unreachable in this model (the body raises nothing), so the result is
always `some`; the `Option` return type mirrors the Python signature
`Optional[str]`.  `sources` is falsy (skipping the per-source layout) when
it is `None` or the empty list. -/
def generate_response {F : Type} (fmt2 : F → List Char)
    (context query : List Char) (sources : Option (List (SourceInfo F))) :
    Option (List Char) :=
  let nl : List Char := [Char.ofNat 10]
  let header := "Based on the knowledge base, here\x27s what I found:".toList ++ nl
  let body : List (List Char) :=
    match sources with
    | some ss =>
      if ss.isEmpty then [nl ++ context ++ nl]
      else ((List.enumFrom 1 ss).map (fun p =>
        [nl ++ (Nat.repr p.1).toList ++ (". From ".toList) ++ p.2.source_file
           ++ (" (relevance: ".toList) ++ fmt2 p.2.similarity_score ++ ("):".toList),
         ("   ".toList) ++ p.2.chunk_text ++ nl])).flatten
    | none => [nl ++ context ++ nl]
  let footer := nl ++ ("Note: This answer is compiled directly from the documents in the knowledge base. For more detailed information, please refer to the source documents listed above.".toList)
  some (List.intercalate nl ([header] ++ body ++ [footer]))

end LLMClient

/-- Python truthiness test `if not answer` on an `Optional[str]`
(query_engine.py line 126): falsy when `None` or the empty string. -/
def isFalsyStr : Option (List Char) → Bool
  | none => true
  | some s => s.isEmpty

namespace QueryEngine

/-- `QueryEngine.query` (query_engine.py lines 46-146).
`encodeResult` is the outcome of `self.embedding_model.encode(question)`
(line 64): `Except.error` models the embedder raising — note that this call
is NOT inside any `try`, so the error is returned unchanged, i.e. the
exception propagates out of `query`.  `searchCall` is the behaviour of
`self.endee_client.search_vectors` (lines 68-74, wrapped in `try/except`
whose handler builds the error outcome of lines 77-82). -/
def query {F E : Type} (fzero : F) (round3 : F → F) (fmt2 : F → List Char)
    (question : List Char) (verbose : Bool)
    (encodeResult : Except (List Char) E)
    (searchCall : E → Except (List Char) (List (SearchResult F))) :
    Except (List Char) (QueryOutcome F) :=
  match encodeResult with
  | .error e => .error e
  | .ok emb =>
    match searchCall emb with
    | .error e =>
      .ok ⟨question, errRetrieveAnswer, some [], none, some e⟩
    | .ok search_results =>
      if search_results.isEmpty then
        .ok ⟨question, insufficientAnswer, some [], none, none⟩
      else
        let sources_info := search_results.map (mkSourceInfo round3 fzero)
        let context_parts :=
          (List.enumFrom 1 search_results).map (fun p => contextPart p.1 p.2)
        let full_context :=
          List.intercalate ([Char.ofNat 10] ++ [Char.ofNat 10]) context_parts
        let answer := LLMClient.generate_response fmt2 full_context question
          (some sources_info)
        if isFalsyStr answer then
          .ok ⟨question, errGenerateAnswer,
            some (if verbose then sources_info else []), none, none⟩
        else if verbose then
          .ok ⟨question, answer.getD [], some sources_info,
            some sources_info.length, none⟩
        else
          .ok ⟨question, answer.getD [], none, none, none⟩

end QueryEngine

/-- The body of an HTTP search response as `search_vectors` inspects it:
a JSON object (whose `results` key may be absent), a JSON array, some
other JSON value, or a body on which `response.json()` raises. -/
inductive SearchBody (F : Type) where
  | jsonDict (results : Option (List (SearchResult F)))
  | jsonList (results : List (SearchResult F))
  | jsonOther
  | nonJson (text : List Char)
  deriving Repr, DecidableEq

/-- The outcome of the `requests.post` call inside `search_vectors`:
either the transport raised (`exn`) or a response arrived. -/
inductive HttpOutcome (F : Type) where
  | exn (message : List Char)
  | resp (status : Nat) (body : SearchBody F)
  deriving Repr, DecidableEq

namespace EndeeClient

/-- `EndeeClient.search_vectors` (endee_client.py lines 156-214).  Every
failure path returns `[]`: non-200 status (line 192), non-dict/non-list
JSON (line 204), non-JSON body (lines 205-210), and — crucially — ANY
exception, transport errors included, via the catch-all handler of lines
212-214.  The function never raises. -/
def search_vectors {F : Type} (outcome : HttpOutcome F) :
    List (SearchResult F) :=
  match outcome with
  | .exn _ => []
  | .resp status body =>
    if status ≠ 200 then []
    else match body with
      | .jsonDict results => results.getD []
      | .jsonList results => results
      | .jsonOther => []
      | .nonJson _ => []

end EndeeClient

/-- `QueryEngine.query` wired to the real `EndeeClient.search_vectors`:
since `search_vectors` never raises, the engine's `try/except` always
observes a normal return. -/
def query_with_client {F E : Type} (fzero : F) (round3 : F → F)
    (fmt2 : F → List Char) (question : List Char) (verbose : Bool)
    (encodeResult : Except (List Char) E) (outcome : HttpOutcome F) :
    Except (List Char) (QueryOutcome F) :=
  QueryEngine.query fzero round3 fmt2 question verbose encodeResult
    (fun _ => Except.ok (EndeeClient.search_vectors outcome))

/-! ### Basic lemmas about word splitting -/

theorem splitWordsAux_nil_of_all (text : List Char)
    (h : ∀ c ∈ text, c.isWhitespace) : splitWordsAux text [] = [] := by
  induction text with
  | nil => rfl
  | cons c rest ih =>
    have hc : c.isWhitespace := h c (List.mem_cons_self c rest)
    simp only [splitWordsAux, hc, if_true, List.isEmpty_nil]
    exact ih (fun d hd => h d (List.mem_cons_of_mem c hd))

theorem splitWords_nil_of_all (text : List Char)
    (h : ∀ c ∈ text, c.isWhitespace) : splitWords text = [] :=
  splitWordsAux_nil_of_all text h

theorem splitWordsAux_ne_nil (t : List Char) :
    ∀ acc : List Char, acc ≠ [] → splitWordsAux t acc ≠ [] := by
  induction t with
  | nil =>
    intro acc hacc
    simp [splitWordsAux, List.isEmpty_iff, hacc]
  | cons c rest ih =>
    intro acc hacc
    by_cases hc : c.isWhitespace
    · simp [splitWordsAux, hc, List.isEmpty_iff, hacc]
    · exact (by simpa [splitWordsAux, hc] using ih (c :: acc) (by simp))

theorem all_of_splitWordsAux_eq_nil :
    ∀ (t acc : List Char), splitWordsAux t acc = [] →
      ∀ c ∈ t, c.isWhitespace := by
  intro t
  induction t with
  | nil => intro acc _ c hc; exact absurd hc (List.not_mem_nil c)
  | cons d rest ih =>
    intro acc hnil c hc
    by_cases hd : d.isWhitespace
    · by_cases hacc : acc.isEmpty
      · rcases List.mem_cons.mp hc with hcd | hcr
        · exact hcd ▸ hd
        · exact ih [] (by simpa [splitWordsAux, hd, hacc] using hnil) c hcr
      · simp [splitWordsAux, hd, hacc] at hnil
    · exact absurd (by simpa [splitWordsAux, hd] using hnil)
        (splitWordsAux_ne_nil rest (d :: acc) (by simp))

theorem splitWords_ne_nil_of_not_all (text : List Char)
    (h : ¬ text.all Char.isWhitespace) : splitWords text ≠ [] := by
  intro hnil
  refine h ?_
  rw [List.all_eq_true]
  exact all_of_splitWordsAux_eq_nil text [] hnil

/-! ### The chunking loop: termination, chunk count, chunk contents -/

/-- With a positive step (`overlap < chunk_size`) and fuel at least
`(total - start) / step` (here generously `total ≤ start + fuel * step`),
the loop terminates and produces exactly the windows
`words[start + k*step : start + k*step + chunk_size]` for every
`k` with `start + k*step < total`; the number of windows is
`⌈(total - start) / step⌉`. -/
theorem chunkLoop_spec (chunk_size overlap total : Nat)
    (words : List (List Char)) (hso : overlap < chunk_size) :
    ∀ fuel start, total ≤ start + fuel * (chunk_size - overlap) →
    ∃ l, chunkLoop chunk_size overlap total words fuel start = some l ∧
      l.length = (if start < total
        then (total - start - 1) / (chunk_size - overlap) + 1 else 0) ∧
      ∀ k, (hk : k < l.length) →
        l.get ⟨k, hk⟩ =
          (words.drop (start + k * (chunk_size - overlap))).take chunk_size := by
  have hs : 0 < chunk_size - overlap := Nat.sub_pos_of_lt hso
  intro fuel
  induction fuel with
  | zero =>
    intro start h
    have hge : ¬ start < total := by omega
    refine ⟨[], ?_, ?_, ?_⟩
    · simp [chunkLoop, hge]
    · simp [hge]
    · intro k hk; simp at hk
  | succ f ih =>
    intro start h
    by_cases hlt : start < total
    · have h' : total ≤ (start + (chunk_size - overlap)) + f * (chunk_size - overlap) := by
        have hmul : (f + 1) * (chunk_size - overlap)
            = f * (chunk_size - overlap) + (chunk_size - overlap) := Nat.succ_mul _ _
        omega
      obtain ⟨l', hl', hlen', hcont'⟩ := ih (start + (chunk_size - overlap)) h'
      refine ⟨(words.drop start).take chunk_size :: l', ?_, ?_, ?_⟩
      · simp [chunkLoop, hlt, hl']
      · rw [List.length_cons, hlen', if_pos hlt]
        by_cases h2 : start + (chunk_size - overlap) < total
        · rw [if_pos h2]
          have hle : chunk_size - overlap ≤ total - start - 1 := by omega
          rw [Nat.div_eq (total - start - 1) (chunk_size - overlap),
            if_pos ⟨hs, hle⟩]
          have harith : total - start - 1 - (chunk_size - overlap)
              = total - (start + (chunk_size - overlap)) - 1 := by omega
          rw [harith]
        · rw [if_neg h2]
          have : (total - start - 1) / (chunk_size - overlap) = 0 :=
            Nat.div_eq_of_lt (by omega)
          omega
      · intro k hk
        cases k with
        | zero => simp
        | succ k' =>
          have hk' : k' < l'.length := by
            simpa using Nat.lt_of_succ_lt_succ (by simpa using hk)
          have hrec := hcont' k' hk'
          have hidx : start + (chunk_size - overlap) + k' * (chunk_size - overlap)
              = start + (k' + 1) * (chunk_size - overlap) := by ring
          simpa [List.get, hidx] using hrec
    · refine ⟨[], ?_, ?_, ?_⟩
      · simp [chunkLoop, hlt]
      · simp [hlt]
      · intro k hk; simp at hk

/-- With a zero step (`chunk_size ≤ overlap`, so in particular
`chunk_size = overlap`) and a nonempty word list, the loop never leaves
`start_idx = 0`: no amount of fuel produces a result. -/
theorem chunkLoop_no_progress (chunk_size overlap total : Nat)
    (words : List (List Char)) (hov : chunk_size ≤ overlap) (h0 : 0 < total) :
    ∀ fuel, chunkLoop chunk_size overlap total words fuel 0 = none := by
  have hstep : chunk_size - overlap = 0 := Nat.sub_eq_zero_of_le hov
  intro fuel
  induction fuel with
  | zero => simp [chunkLoop, h0]
  | succ f ih => simp [chunkLoop, h0, hstep, ih]

/-- Whenever `overlap < chunk_size`, `chunk_text` terminates on every input
(the fuel `total` given to the loop suffices). -/
theorem chunk_text_isSome (chunk_size overlap : Nat) (text : List Char)
    (hso : overlap < chunk_size) :
    (chunk_text chunk_size overlap text).isSome = true := by
  by_cases hall : text.all Char.isWhitespace
  · simp [chunk_text, hall]
  · by_cases hle : (splitWords text).length ≤ chunk_size
    · simp [chunk_text, hall, hle]
    · have hfuel : (splitWords text).length ≤
          0 + (splitWords text).length * (chunk_size - overlap) := by
        have := Nat.le_mul_of_pos_right (splitWords text).length
          (Nat.sub_pos_of_lt hso)
        omega
      obtain ⟨l, hl, -, -⟩ :=
        chunkLoop_spec chunk_size overlap (splitWords text).length
          (splitWords text) hso (splitWords text).length 0 hfuel
      simp [chunk_text, hall, hle, hl]

/-! ### Claim theorems: the chunker -/

/-- C8.  Empty or whitespace-only input (the guard
`if not text or not text.strip()` of chunker.py line 69) yields the empty
chunk sequence, with no error — the result is a normal return (`some`). -/
theorem chunk_text_whitespace_empty (chunk_size overlap : Nat)
    (text : List Char) (h : text.all Char.isWhitespace) :
    chunk_text chunk_size overlap text = some [] := by
  simp [chunk_text, h]

/-- Witness for `chunk_text_whitespace_empty` at the two-space text and the
default configuration (512, 50). -/
theorem chunk_text_whitespace_empty_witness :
    chunk_text 512 50 ("  ".toList) = some [] :=
  chunk_text_whitespace_empty 512 50 ("  ".toList) (by decide)

/-- C6, counterexample to the claim as stated.  The single-space text has
word count `W = 0 ≤ 512 = chunk_size`, yet `chunk_text` returns zero
chunks, not one chunk equal to the original text: the whitespace guard of
line 69 precedes the `W <= chunk_size` rule. -/
theorem chunk_text_small_cex :
    chunk_text 512 50 (" ".toList) = some [] ∧
      (splitWords (" ".toList)).length = 0 :=
  ⟨rfl, rfl⟩

/-- C6, amended: for texts with at least one word, word count
`W ≤ chunk_size` makes `chunk_text` return exactly the one-element sequence
holding the original text verbatim (chunker.py lines 76-78) — in
particular equal to it modulo whitespace normalization. -/
theorem chunk_text_small (chunk_size overlap : Nat) (text : List Char)
    (h1 : 1 ≤ (splitWords text).length)
    (h2 : (splitWords text).length ≤ chunk_size) :
    chunk_text chunk_size overlap text = some [text] := by
  have hall : ¬ (text.all Char.isWhitespace = true) := by
    intro hA
    have hnil := splitWords_nil_of_all text (by simpa [List.all_eq_true] using hA)
    rw [hnil] at h1
    simp at h1
  simp [chunk_text, hall, h2]

/-- Witness for `chunk_text_small`: a two-word text under the default
configuration comes back as a single chunk, verbatim. -/
theorem chunk_text_small_witness :
    chunk_text 512 50 ("hello world".toList) = some ["hello world".toList] :=
  chunk_text_small 512 50 ("hello world".toList) (by decide) (by decide)

/-- C2, counterexample to the claimed chunk count.  On a 25-word text with
`chunk_size = 10`, `overlap = 2` the loop emits windows starting at word
indices 0, 8, 16 and 24 — four chunks — while the claimed formula
`ceil((W - chunk_size) / (chunk_size - overlap)) + 1` (written below with
natural-number ceiling division) gives 3. -/
theorem chunk_count_formula_cex :
    (chunk_text 10 2
        ("a b c d e f g h i j k l m n o p q r s t u v w x y".toList)).map
      List.length = some 4 ∧
    ((25 - 10) + ((10 - 2) - 1)) / (10 - 2) + 1 = 3 ∧
    (4 : Nat) ≠ 3 :=
  ⟨rfl, by decide, by decide⟩

/-- C2, amended: for `overlap < chunk_size` and word count
`W > chunk_size`, the chunks are the windows of `chunk_size` words taken at
start indices `0, s, 2s, ...` for step `s = chunk_size - overlap` while the
start index is below `W` (the last window clipped to the remaining words,
each window joined by single spaces), and the number of chunks is
`(W - 1) / s + 1`, i.e. `ceil(W / s)` — not
`ceil((W - chunk_size) / s) + 1` as claimed. -/
theorem chunk_text_window_count (chunk_size overlap : Nat) (text : List Char)
    (hso : overlap < chunk_size)
    (hW : chunk_size < (splitWords text).length) :
    ∃ l, chunk_text chunk_size overlap text = some l ∧
      l.length = ((splitWords text).length - 1) / (chunk_size - overlap) + 1 ∧
      ∀ k, (hk : k < l.length) → l.get ⟨k, hk⟩ =
        List.intercalate [' ']
          (((splitWords text).drop (k * (chunk_size - overlap))).take chunk_size) := by
  have hall : ¬ (text.all Char.isWhitespace = true) := by
    intro hA
    have hnil := splitWords_nil_of_all text (by simpa [List.all_eq_true] using hA)
    rw [hnil] at hW
    simp at hW
  have hle : ¬ ((splitWords text).length ≤ chunk_size) := Nat.not_le.mpr hW
  have hfuel : (splitWords text).length ≤
      0 + (splitWords text).length * (chunk_size - overlap) := by
    have := Nat.le_mul_of_pos_right (splitWords text).length
      (Nat.sub_pos_of_lt hso)
    omega
  obtain ⟨l₀, hl₀, hlen₀, hcont₀⟩ :=
    chunkLoop_spec chunk_size overlap (splitWords text).length
      (splitWords text) hso (splitWords text).length 0 hfuel
  have h0 : 0 < (splitWords text).length := by omega
  refine ⟨l₀.map (List.intercalate [' ']), ?_, ?_, ?_⟩
  · simp [chunk_text, hall, hle, hl₀]
  · simp [hlen₀, h0]
  · intro k hk
    have hk₀ : k < l₀.length := by simpa using hk
    have := hcont₀ k hk₀
    simpa using congrArg (List.intercalate [' ']) this

/-- Witness for `chunk_text_window_count` on a concrete 25-word text with
`chunk_size = 10`, `overlap = 2`: it yields `(25 - 1) / 8 + 1 = 4` chunks. -/
theorem chunk_text_window_count_witness :
    ∃ l, chunk_text 10 2
        ("b c d e f g h i j k l m n o p q r s t u v w x y z".toList) = some l ∧
      l.length = ((splitWords
        ("b c d e f g h i j k l m n o p q r s t u v w x y z".toList)).length - 1)
          / (10 - 2) + 1 ∧
      ∀ k, (hk : k < l.length) → l.get ⟨k, hk⟩ =
        List.intercalate [' ']
          (((splitWords
              ("b c d e f g h i j k l m n o p q r s t u v w x y z".toList)).drop
            (k * (10 - 2))).take 10) :=
  chunk_text_window_count 10 2
    ("b c d e f g h i j k l m n o p q r s t u v w x y z".toList)
    (by decide) (by decide)

/-- C5.  For every 25-word text with `chunk_size = 10`, `overlap = 2`:
exactly four chunks, namely the word windows at start indices 0, 8, 16 and
24; each window holds at most 10 words; each pair of consecutive chunks
other than the pair ending at the last chunk shares exactly 2 words (the
first window's last two words are the next window's first two).  The final
pair shares only the single remaining word, which the claim's "except
possibly at the last chunk" allows. -/
theorem chunk_25_words_10_2 (text : List Char)
    (hw : (splitWords text).length = 25) :
    ∃ a b c d : List (List Char),
      a = (splitWords text).take 10 ∧
      b = ((splitWords text).drop 8).take 10 ∧
      c = ((splitWords text).drop 16).take 10 ∧
      d = ((splitWords text).drop 24).take 10 ∧
      chunk_text 10 2 text = some ([a, b, c, d].map (List.intercalate [' '])) ∧
      a.length ≤ 10 ∧ b.length ≤ 10 ∧ c.length ≤ 10 ∧ d.length ≤ 10 ∧
      a.drop 8 = b.take 2 ∧ (a.drop 8).length = 2 ∧
      b.drop 8 = c.take 2 ∧ (b.drop 8).length = 2 := by
  have hall : ¬ (text.all Char.isWhitespace = true) := by
    intro hA
    have hnil := splitWords_nil_of_all text (by simpa [List.all_eq_true] using hA)
    rw [hnil] at hw
    simp at hw
  obtain ⟨l, hl, hlen, hcont⟩ :=
    chunkLoop_spec 10 2 25 (splitWords text) (by decide) 25 0 (by decide)
  have hlen4 : l.length = 4 := by
    rw [hlen, if_pos (by decide)]
  rcases l with _ | ⟨a, _ | ⟨b, _ | ⟨c, _ | ⟨d, _ | ⟨e, tl⟩⟩⟩⟩⟩
  · simp at hlen4
  · simp at hlen4
  · simp at hlen4
  · simp at hlen4
  case cons.cons.cons.cons.cons => simp at hlen4
  have ha : a = (splitWords text).take 10 := by
    simpa using hcont 0 (by simp)
  have hb : b = ((splitWords text).drop 8).take 10 := by
    simpa using hcont 1 (by simp)
  have hc : c = ((splitWords text).drop 16).take 10 := by
    simpa using hcont 2 (by simp)
  have hd : d = ((splitWords text).drop 24).take 10 := by
    simpa using hcont 3 (by simp)
  refine ⟨a, b, c, d, ha, hb, hc, hd, ?_, ?_, ?_, ?_, ?_, ?_, ?_, ?_, ?_⟩
  · have hle : ¬ ((splitWords text).length ≤ 10) := by omega
    simp only [chunk_text]
    rw [if_neg hall, if_neg hle, hw, hl]
    rfl
  · simp [ha, List.length_take]
  · simp [hb, List.length_take]
  · simp [hc, List.length_take]
  · simp [hd, List.length_take]
  · rw [ha, hb, List.drop_take 10 8, List.take_take]
    norm_num
  · rw [ha, List.drop_take 10 8]
    simp [List.length_take, List.length_drop, hw]
  · rw [hb, hc, List.drop_take 10 8, List.take_take, List.drop_drop]
    norm_num
  · rw [hb, List.drop_take 10 8]
    simp [List.length_take, List.length_drop, hw]

/-- Witness for `chunk_25_words_10_2` at a concrete 25-word text. -/
theorem chunk_25_words_10_2_witness :
    ∃ a b c d : List (List Char),
      a = (splitWords ("c d e f g h i j k l m n o p q r s t u v w x y z a".toList)).take 10 ∧
      b = ((splitWords ("c d e f g h i j k l m n o p q r s t u v w x y z a".toList)).drop 8).take 10 ∧
      c = ((splitWords ("c d e f g h i j k l m n o p q r s t u v w x y z a".toList)).drop 16).take 10 ∧
      d = ((splitWords ("c d e f g h i j k l m n o p q r s t u v w x y z a".toList)).drop 24).take 10 ∧
      chunk_text 10 2 ("c d e f g h i j k l m n o p q r s t u v w x y z a".toList)
        = some ([a, b, c, d].map (List.intercalate [' '])) ∧
      a.length ≤ 10 ∧ b.length ≤ 10 ∧ c.length ≤ 10 ∧ d.length ≤ 10 ∧
      a.drop 8 = b.take 2 ∧ (a.drop 8).length = 2 ∧
      b.drop 8 = c.take 2 ∧ (b.drop 8).length = 2 :=
  chunk_25_words_10_2 ("c d e f g h i j k l m n o p q r s t u v w x y z a".toList)
    (by decide)

/-- C4, counterexample to the claim as stated.  `(5, 5)` violates the
precondition `chunk_size > overlap`, yet `TextChunker.__init__` succeeds:
it performs no validation and the code base defines no
`ConfigurationError` at all. -/
theorem textChunker_init_no_validation_cex :
    ¬ ((5 : Int) > 5) ∧ TextChunker.init 5 5 = Except.ok ⟨5, 5⟩ :=
  ⟨by decide, rfl⟩

/-- C4, amended: `TextChunker.__init__` accepts every `(chunk_size,
overlap)` pair — including every pair violating
`chunk_size > overlap >= 0`, `chunk_size >= 1` — storing the values
unchecked and raising nothing; no `ConfigurationError` is ever produced.
(With `chunk_size ≤ overlap` the failure instead appears later as
non-termination of the chunking loop, see `chunkLoop_no_progress`.) -/
theorem textChunker_init_always_ok (chunk_size overlap : Int) :
    TextChunker.init chunk_size overlap = Except.ok ⟨chunk_size, overlap⟩ :=
  rfl

/-- C10.  First conjunct: under the precondition `overlap < chunk_size`
the chunking loop advances by the positive step `chunk_size - overlap`
each iteration, so `chunk_text` terminates on every text (fuel `total`
suffices and the model returns `some`).  Second conjunct: the precondition
is necessary — with `chunk_size = overlap` the step is zero, the start
index stays at 0, and no amount of fuel completes the loop on a nonempty
word list (the Python loop runs forever). -/
theorem chunk_text_termination :
    (∀ (chunk_size overlap : Nat) (text : List Char), overlap < chunk_size →
      (chunk_text chunk_size overlap text).isSome = true) ∧
    (∀ (chunk_size total : Nat) (words : List (List Char)) (fuel : Nat),
      0 < total →
      chunkLoop chunk_size chunk_size total words fuel 0 = none) :=
  ⟨fun chunk_size overlap text hso => chunk_text_isSome chunk_size overlap text hso,
   fun chunk_size total words fuel h0 =>
    chunkLoop_no_progress chunk_size chunk_size total words (Nat.le_refl _) h0 fuel⟩

/-- Witness for `chunk_text_termination`: termination at `(2, 1)` on a
three-word text, and divergence of the loop at `chunk_size = overlap = 3`
on a five-word total with fuel 7. -/
theorem chunk_text_termination_witness :
    (chunk_text 2 1 ("one two three".toList)).isSome = true ∧
    chunkLoop 3 3 5 [] 7 0 = none :=
  ⟨chunk_text_termination.1 2 1 ("one two three".toList) (by decide),
   chunk_text_termination.2 3 5 [] 7 (by decide)⟩

/-- C9.  `chunk_documents` concatenates one group of `ChunkInfo` records
per document, in document order; within a document's group the
`chunk_id` (sequence index) values are exactly `1..N` in order with no
gaps, where `N` is that document's chunk count, every record carries
`total_chunks = N` and the document's filename, and the chunk texts appear
in the order `chunk_text` produced them. -/
theorem chunk_documents_indexing (chunk_size overlap : Nat)
    (docs : List (List Char × List Char)) (hso : overlap < chunk_size) :
    ∃ groups : List (List ChunkInfo),
      chunk_documents chunk_size overlap docs = some groups.flatten ∧
      List.Forall₂ (fun (doc : List Char × List Char) (grp : List ChunkInfo) =>
        ∃ chunks, chunk_text chunk_size overlap doc.2 = some chunks ∧
          grp.map ChunkInfo.chunk_id = List.range' 1 chunks.length ∧
          grp.map ChunkInfo.chunk_text = chunks ∧
          ∀ ci ∈ grp, ci.total_chunks = chunks.length ∧ ci.filename = doc.1)
        docs groups := by
  induction docs with
  | nil => exact ⟨[], rfl, List.Forall₂.nil⟩
  | cons doc rest ih =>
    obtain ⟨fn, content⟩ := doc
    obtain ⟨groups, hg, hf⟩ := ih
    obtain ⟨chunks, hchunks⟩ := Option.isSome_iff_exists.mp
      (chunk_text_isSome chunk_size overlap content hso)
    refine ⟨(List.enumFrom 1 chunks).map
        (fun p => ⟨fn, p.1, p.2, chunks.length⟩) :: groups, ?_, ?_⟩
    · simp [chunk_documents, hchunks, hg]
    · refine List.Forall₂.cons ⟨chunks, hchunks, ?_, ?_, ?_⟩ hf
      · rw [List.map_map]
        exact List.enumFrom_map_fst 1 chunks
      · rw [List.map_map]
        exact List.enumFrom_map_snd 1 chunks
      · intro ci hci
        rcases List.mem_map.mp hci with ⟨p, -, rfl⟩
        exact ⟨rfl, rfl⟩

/-- Witness for `chunk_documents_indexing` on two concrete documents with
`chunk_size = 2`, `overlap = 0` ("a b c" splits into chunks "a b", "c";
"x" stays whole). -/
theorem chunk_documents_indexing_witness :
    ∃ groups : List (List ChunkInfo),
      chunk_documents 2 0 [("doc1".toList, "a b c".toList),
        ("doc2".toList, "x".toList)] = some groups.flatten ∧
      List.Forall₂ (fun (doc : List Char × List Char) (grp : List ChunkInfo) =>
        ∃ chunks, chunk_text 2 0 doc.2 = some chunks ∧
          grp.map ChunkInfo.chunk_id = List.range' 1 chunks.length ∧
          grp.map ChunkInfo.chunk_text = chunks ∧
          ∀ ci ∈ grp, ci.total_chunks = chunks.length ∧ ci.filename = doc.1)
        [("doc1".toList, "a b c".toList), ("doc2".toList, "x".toList)] groups :=
  chunk_documents_indexing 2 0
    [("doc1".toList, "a b c".toList), ("doc2".toList, "x".toList)] (by decide)

/-! ### Claim theorems: the query engine -/

/-- C7.  When the search call returns normally with zero results,
`query` returns the "insufficient information" answer with an empty
`sources` list and NO error field — an outcome distinct from the error
case both in the answer string and in the absent `error` key
(query_engine.py lines 84-90). -/
theorem query_empty_results {F E : Type} (fzero : F) (round3 : F → F)
    (fmt2 : F → List Char) (question : List Char) (verbose : Bool) (emb : E)
    (searchCall : E → Except (List Char) (List (SearchResult F)))
    (h : searchCall emb = Except.ok []) :
    QueryEngine.query fzero round3 fmt2 question verbose
        (Except.ok emb) searchCall
      = Except.ok ⟨question, insufficientAnswer, some [], none, none⟩ ∧
    insufficientAnswer ≠ errRetrieveAnswer := by
  refine ⟨?_, by decide⟩
  simp [QueryEngine.query, h]

/-- Witness for `query_empty_results` with concrete score type `Nat`,
embedding type `Nat`, and a search oracle returning zero results. -/
theorem query_empty_results_witness :
    QueryEngine.query (0 : Nat) id (fun n => (Nat.repr n).toList)
        ("What is Endee?".toList) true (Except.ok (7 : Nat))
        (fun _ => Except.ok [])
      = Except.ok ⟨"What is Endee?".toList, insufficientAnswer,
          some [], none, none⟩ ∧
    insufficientAnswer ≠ errRetrieveAnswer :=
  query_empty_results (0 : Nat) id (fun n => (Nat.repr n).toList)
    ("What is Endee?".toList) true (7 : Nat) (fun _ => Except.ok []) rfl

/-- C3, counterexample to the claim as stated.  The call
`self.embedding_model.encode(question)` (query_engine.py line 64) is not
wrapped in any `try`, so an embedder error leaves `query` as the raw
exception — no `QueryOutcome` is produced. -/
theorem query_embed_error_cex :
    QueryEngine.query (0 : Nat) id (fun n => (Nat.repr n).toList)
        ("What is Endee?".toList) true
        (Except.error ("model load failed".toList) :
          Except (List Char) (List Nat))
        (fun _ => Except.ok [])
      = Except.error ("model load failed".toList) :=
  rfl

/-- C3, amended: when embedding the question fails, the exception
propagates unchanged out of `QueryEngine.query`; the error-outcome
conversion applies only to the search stage, not to the embed stage. -/
theorem query_embed_error_propagates {F E : Type} (fzero : F)
    (round3 : F → F) (fmt2 : F → List Char) (question : List Char)
    (verbose : Bool) (e : List Char)
    (searchCall : E → Except (List Char) (List (SearchResult F))) :
    QueryEngine.query fzero round3 fmt2 question verbose
        (Except.error e) searchCall
      = Except.error e :=
  rfl

/-- C1, counterexample to the claim as stated.  When the transport raises
inside `search_vectors`, its catch-all handler (endee_client.py lines
212-214) swallows the exception and returns `[]`, so `query` takes the
zero-results branch: the outcome carries the "insufficient information"
answer and NO error field — not an error-class answer with a populated
error field.  (The error branch of query_engine.py lines 75-82 would fire
only if `search_vectors` raised, which it never does.) -/
theorem query_store_error_cex :
    query_with_client (0 : Nat) id (fun n => (Nat.repr n).toList)
        ("What is Endee?".toList) true
        (Except.ok ([] : List Nat))
        (HttpOutcome.exn ("Connection refused".toList))
      = Except.ok ⟨"What is Endee?".toList, insufficientAnswer,
          some [], none, none⟩ ∧
    insufficientAnswer ≠ errRetrieveAnswer :=
  ⟨rfl, by decide⟩

/-- C1, amended: a store failure during search — a transport exception or
a non-200 response — never propagates past the orchestrator boundary, but
it is absorbed inside `EndeeClient.search_vectors` as an empty result
list, so `QueryEngine.query` returns the "insufficient information"
outcome with empty `sources` and NO error field; the error-class answer
with a populated error field is unreachable for store errors. -/
theorem query_store_error_handled {F E : Type} (fzero : F) (round3 : F → F)
    (fmt2 : F → List Char) (question : List Char) (verbose : Bool) (emb : E) :
    (∀ msg : List Char,
      query_with_client fzero round3 fmt2 question verbose
          (Except.ok emb) (HttpOutcome.exn msg)
        = Except.ok ⟨question, insufficientAnswer, some [], none, none⟩) ∧
    (∀ (status : Nat) (body : SearchBody F), status ≠ 200 →
      query_with_client fzero round3 fmt2 question verbose
          (Except.ok emb) (HttpOutcome.resp status body)
        = Except.ok ⟨question, insufficientAnswer, some [], none, none⟩) := by
  constructor
  · intro msg
    rfl
  · intro status body hstatus
    simp [query_with_client, QueryEngine.query, EndeeClient.search_vectors,
      hstatus]

/-- Witness for `query_store_error_handled`: a concrete connection failure
and a concrete HTTP 500 response. -/
theorem query_store_error_handled_witness :
    query_with_client (0 : Nat) id (fun n => (Nat.repr n).toList)
        ("q".toList) false (Except.ok (3 : Nat))
        (HttpOutcome.exn ("timed out".toList))
      = Except.ok ⟨"q".toList, insufficientAnswer, some [], none, none⟩ ∧
    query_with_client (0 : Nat) id (fun n => (Nat.repr n).toList)
        ("q".toList) false (Except.ok (3 : Nat))
        (HttpOutcome.resp 500 SearchBody.jsonOther)
      = Except.ok ⟨"q".toList, insufficientAnswer, some [], none, none⟩ :=
  ⟨(query_store_error_handled (0 : Nat) id (fun n => (Nat.repr n).toList)
      ("q".toList) false (3 : Nat)).1 ("timed out".toList),
   (query_store_error_handled (0 : Nat) id (fun n => (Nat.repr n).toList)
      ("q".toList) false (3 : Nat)).2 500 SearchBody.jsonOther (by decide)⟩

end Endee

